import Mathlib

/-
Verification development for the djedi-react client
(src/djedi-react/src/djedi.js): a shallow embedding of the Djedi class
(node cache, request batching, rendered-node tracking) together with
theorems about its behaviour.

Modelling conventions:
  - JS Maps and plain objects are association lists preserving insertion
    order; Map.set / property assignment replaces in place or appends.
  - The event loop is made explicit: operations are pure functions on a
    Djedi state, timers are identifiers handed out by the state, network
    requests are appended to a log, and promise resolution/rejection is a
    separate function applied to the pending-request data.
  - Callbacks are identifiers; an invocation is a pair of the callback id
    and the argument it receives.
  - The uri.js helpers (parseUri, stringifyUri, applyUriDefaults) are not
    part of the provided source; they are modelled from the spec where
    marked.
-/

/-! ### Association lists (JS Map / object semantics) -/

/-- Lookup in an insertion-ordered association list (JS Map.get / obj[k]). -/
def lookupA {α β : Type} [DecidableEq α] : List (α × β) → α → Option β
  | [], _ => none
  | (k, v) :: rest, key => if k = key then some v else lookupA rest key

/-- Insert or replace in place (JS Map.set / obj[k] = v keeps the original
insertion position of an existing key and appends a new key). -/
def setA {α β : Type} [DecidableEq α] : List (α × β) → α → β → List (α × β)
  | [], k, v => [(k, v)]
  | (k0, v0) :: rest, k, v =>
      if k0 = k then (k, v) :: rest else (k0, v0) :: setA rest k v

/-- Remove a key (JS Map.delete / delete obj[k]). -/
def eraseA {α β : Type} [DecidableEq α] : List (α × β) → α → List (α × β)
  | [], _ => []
  | (k0, v0) :: rest, k =>
      if k0 = k then rest else (k0, v0) :: eraseA rest k

/-! ### Character-list splitting used by the URI model -/

/-- Test whether the pattern is an initial run of the character list. -/
def startsWithChars : List Char → List Char → Bool
  | [], _ => true
  | _ :: _, [] => false
  | p :: ps, c :: cs => p = c && startsWithChars ps cs

/-- Split at the first occurrence of the separator, returning the parts
before and after it, or none when the separator does not occur. -/
def splitFirst (sep : List Char) : List Char → Option (List Char × List Char)
  | [] => none
  | c :: rest =>
      if startsWithChars sep (c :: rest) then some ([], (c :: rest).drop sep.length)
      else
        match splitFirst sep rest with
        | some (a, b) => some (c :: a, b)
        | none => none

/-- Fuelled helper for splitting at the last occurrence of a separator. -/
def splitLastAux : Nat → List Char → List Char → Option (List Char × List Char)
  | 0, _, _ => none
  | fuel + 1, sep, s =>
      match splitFirst sep s with
      | none => none
      | some (a, b) =>
          match splitLastAux fuel sep b with
          | none => some (a, b)
          | some (a2, b2) => some (a ++ sep ++ a2, b2)

/-- Split at the last occurrence of the separator, or none when the
separator does not occur. -/
def splitLast (sep s : List Char) : Option (List Char × List Char) :=
  splitLastAux (s.length + 1) sep s

/-! ### URI model

The helpers parseUri, stringifyUri and applyUriDefaults live in
src/djedi-react/src/uri.js, which is not part of the provided source; they
are modelled from the spec here. -/

/-- URI object with all five fields explicit (spec: after normalization
every field is populated; the empty string is a valid explicit value). -/
structure UriObj where
  scheme : String
  namespace_ : String
  path : String
  ext : String
  version : String
deriving DecidableEq, Repr

/-- Parsed URI object in which fields may still be unset (none). -/
structure RawUri where
  scheme : Option String
  namespace_ : Option String
  path : Option String
  ext : Option String
  version : Option String
deriving DecidableEq, Repr

/-- Separator configuration for the five URI fields. -/
structure Separators where
  scheme : String
  namespace_ : String
  path : String
  ext : String
  version : String
deriving DecidableEq, Repr

/-- Split at the first occurrence of a separator string, yielding an
explicit field and the remainder, or an unset field with the input
unchanged. -/
def splitFirstOpt (sep : String) (s : List Char) : Option String × List Char :=
  match splitFirst sep.data s with
  | some (a, b) => (some (String.mk a), b)
  | none => (none, s)

/-- Split at the last occurrence of a separator string, yielding the
remainder and an explicit field, or the input unchanged and an unset
field. -/
def splitLastOpt (sep : String) (s : List Char) : List Char × Option String :=
  match splitLast sep.data s with
  | some (a, b) => (a, some (String.mk b))
  | none => (s, none)

/-- Modelled from the spec: uri.js parseUri is missing from the provided
source. Spec section 4.1: parse a URI string using the configured
separators into the five fields scheme, namespace, path, ext, version
(format scheme://namespace@path.ext#version), leaving absent fields
unset. The scheme and namespace separators delimit from the front, the
version and extension separators from the back; the path is the
remainder. -/
def parseUri (seps : Separators) (uri : String) : RawUri :=
  let (sch, r1) := splitFirstOpt seps.scheme uri.data
  let (ns, r2) := splitFirstOpt seps.namespace_ r1
  let (r3, ver) := splitLastOpt seps.version r2
  let (r4, ext) := splitLastOpt seps.ext r3
  { scheme := sch, namespace_ := ns, path := some (String.mk r4),
    ext := ext, version := ver }

/-- Modelled from the spec: uri.js stringifyUri is missing from the
provided source. Spec sections 3 and 4.1: serialization is a pure
function of the five fields and the separator configuration, producing
scheme://namespace@path.ext#version; a field that is the empty string is
omitted together with its separator (djedi.js element() relies on this
when it blanks scheme, ext and version before stringifying). -/
def stringifyUri (seps : Separators) (u : UriObj) : String :=
  (if u.scheme = "" then "" else u.scheme ++ seps.scheme) ++
  (if u.namespace_ = "" then "" else u.namespace_ ++ seps.namespace_) ++
  u.path ++
  (if u.ext = "" then "" else seps.ext ++ u.ext) ++
  (if u.version = "" then "" else seps.version ++ u.version)

/-- Modelled from the spec: uri.js applyUriDefaults is missing from the
provided source. Spec section 4.1: any unset field takes the configured
default; an unset namespace takes the configured default namespace for
the (defaulted) scheme instead of the generic default. -/
def applyUriDefaults (raw : RawUri) (defaults : UriObj)
    (namespaceByScheme : List (String × String)) : UriObj :=
  let scheme := raw.scheme.getD defaults.scheme
  { scheme := scheme
    namespace_ :=
      match raw.namespace_ with
      | some ns => ns
      | none => (lookupA namespaceByScheme scheme).getD defaults.namespace_
    path := raw.path.getD defaults.path
    ext := raw.ext.getD defaults.ext
    version := raw.version.getD defaults.version }

/-! ### Data model (djedi.js) -/

/-- Content node: a URI plus an optional (default or resolved) value. -/
structure Node where
  uri : String
  value : Option String
deriving DecidableEq, Repr

/-- Error objects surfaced through callbacks: the missing-URI error
created by missingUriError (status 1404), or a request error produced by
the handler in Djedi.prototype._post (transport failure, non-JSON body or
an out-of-range HTTP status), carrying the status it was assigned there. -/
inductive JSError where
  | missingUri (uri : String)
  | requestError (status : Int) (message : String)
deriving DecidableEq, Repr

/-- Status code carried by an error object (missingUriError assigns the
sentinel 1404). -/
def errStatus : JSError → Int
  | JSError.missingUri _ => 1404
  | JSError.requestError s _ => s

/-- Status assigned to a request error in _post:
-1 when no response object exists, otherwise the response status. -/
def postErrorStatus (responseStatus : Option Nat) : Int :=
  match responseStatus with
  | none => -1
  | some s => (s : Int)

/-- Argument passed to a user callback: a node object, the raw response
value (the uncached get path passes results[uri] through unwrapped), or
an error object. -/
inductive CbArg where
  | node (n : Node)
  | raw (v : String)
  | error (e : JSError)
deriving DecidableEq, Repr

/-- Render states understood by the configurable defaultRender option. -/
inductive RenderState where
  | loading
  | error (e : JSError)
  | success (content : String)
  | missing
deriving DecidableEq, Repr

/-- URI-related options (options.uri in djedi.js). -/
structure UriOptions where
  defaults : UriObj
  namespaceByScheme : List (String × String)
  separators : Separators

/-- Djedi options object. -/
structure Options where
  baseUrl : String
  batchInterval : Int
  defaultRender : RenderState → Option String
  uri : UriOptions

/-- Body of a POST request as serialized by JSON.stringify: either a JSON
array of node objects or a JSON object mapping URIs to values. -/
inductive RequestBody where
  | arr (nodes : List Node)
  | obj (mapping : List (String × Option String))
deriving DecidableEq, Repr

/-- A network request issued through _post. -/
structure Request where
  apiUrl : String
  body : RequestBody
deriving DecidableEq, Repr

/-- Server response payload for load_many: a JSON object mapping URIs to
values (a value may be JSON null, modelled as none). -/
abbrev Results := List (String × Option String)

/-- One batch queue entry: the first node enqueued for the URI plus every
callback waiting for it. -/
structure QueueEntry where
  node : Node
  callbacks : List Nat
deriving DecidableEq, Repr

/-- The batch: at most one pending timer plus the queue keyed by URI. -/
structure Batch where
  timeoutId : Option Nat
  queue : List (String × QueueEntry)
deriving DecidableEq, Repr

/-- Mirror of makeEmptyBatch in djedi.js. -/
def makeEmptyBatch : Batch :=
  { timeoutId := none, queue := [] }

/-- Key of the _renderedNodes Map. The source calls
this._renderedNodes.set({value, numInstances: 1}) with a single argument,
so the key actually stored is the freshly allocated entry object (obj,
identified by its heap index) rather than the URI string (str) that
_renderedNodes.get(uri) and .delete(uri) use. -/
inductive RKey where
  | str (s : String)
  | obj (id : Nat)
deriving DecidableEq, Repr

/-- A rendered-node registry entry object ({value, numInstances}). -/
structure RenderedEntry where
  value : Option String
  numInstances : Int
deriving DecidableEq, Repr

/-- Read an entry object from the heap of allocated registry entries. -/
def heapGetD (heap : List RenderedEntry) (r : Nat) : RenderedEntry :=
  heap.getD r { value := none, numInstances := 0 }

/-- State of a Djedi instance together with the explicit event-loop
bookkeeping (timer ids, cancelled timers, the log of issued requests).
_renderedNodes maps keys to either undefined (none) or a reference to an
entry object allocated in heap; _DJEDI_NODES maps version-stripped URIs
to default values. -/
structure Djedi where
  options : Options
  nodes : List (String × Node)
  renderedNodes : List (RKey × Option Nat)
  heap : List RenderedEntry
  batch : Batch
  djediNodes : List (String × Option String)
  nextTimerId : Nat
  activeTimers : List Nat
  cancelledTimers : List Nat
  requests : List Request

/-- Mirror of makeDefaultOptions in djedi.js. -/
def makeDefaultOptions : Options :=
  { baseUrl := ""
    batchInterval := 50
    defaultRender := fun state =>
      match state with
      | RenderState.loading => some "Loading…"
      | RenderState.error e =>
          some ("Failed to fetch content 😞 (" ++ toString (errStatus e) ++ ")")
      | RenderState.success content => some content
      | RenderState.missing => none
    uri :=
      { defaults :=
          { scheme := "i18n", namespace_ := "", path := "", ext := "txt",
            version := "" }
        namespaceByScheme :=
          [("i18n", "en-us"), ("l10n", "local"), ("g11n", "global")]
        separators :=
          { scheme := "://", namespace_ := "@", path := "/", ext := ".",
            version := "#" } } }

/-- State of a freshly constructed Djedi instance. -/
def initialDjedi : Djedi :=
  { options := makeDefaultOptions
    nodes := []
    renderedNodes := []
    heap := []
    batch := makeEmptyBatch
    djediNodes := []
    nextTimerId := 0
    activeTimers := []
    cancelledTimers := []
    requests := [] }

/-! ### URI helpers of the Djedi class -/

/-- Mirror of Djedi.prototype._parseUri composed with _stringifyUri, that
is _normalizeUri: parse with the configured separators, apply the
configured defaults, stringify. -/
def normalizeUri (opts : Options) (uri : String) : String :=
  stringifyUri opts.uri.separators
    (applyUriDefaults (parseUri opts.uri.separators uri)
      opts.uri.defaults opts.uri.namespaceByScheme)

/-- Mirror of Djedi.prototype._normalizeNode: replace the URI with its
normalized form, keeping the value. -/
def normalizeNode (opts : Options) (node : Node) : Node :=
  { node with uri := normalizeUri opts node.uri }

/-- Mirror of Djedi.prototype._djediNodesUri: parse, blank the version
field, stringify. -/
def djediNodesUri (opts : Options) (uri : String) : String :=
  stringifyUri opts.uri.separators
    { applyUriDefaults (parseUri opts.uri.separators uri)
        opts.uri.defaults opts.uri.namespaceByScheme with version := "" }

/-! ### Operations of the Djedi class -/

/-- Data of a pending single-node load issued by Djedi.prototype.get:
the normalized URI, the request that was posted, and the callback. -/
structure PendingGet where
  uri : String
  request : Request
  cb : Nat
deriving DecidableEq, Repr

/-- Data of a pending batched load issued by Djedi.prototype._flushBatch:
the detached queue and the request that was posted. -/
structure PendingLoad where
  queue : List (String × QueueEntry)
  request : Request
deriving DecidableEq, Repr

/-- Synchronous outcome of a public lookup call: the callback was invoked
synchronously with a cached node, a single-node load request is pending,
or the call was enqueued into the batch. -/
inductive CallResult where
  | sync (arg : CbArg)
  | pendingGet (p : PendingGet)
  | queued
deriving DecidableEq, Repr

/-- Mirror of Djedi.prototype.addNodes: for every uri in the result
object build a raw node {uri, value}, normalize it and store it in the
cache under its normalized URI. -/
def addNodes (d : Djedi) (results : Results) : Djedi :=
  { d with
    nodes := results.foldl
      (fun acc kv =>
        let node := normalizeNode d.options { uri := kv.1, value := kv.2 }
        setA acc node.uri node)
      d.nodes }

/-- Mirror of Djedi.prototype.get. The cache hit invokes the callback
synchronously with the cached node; otherwise the source posts
loadMany([node]) - a single-element ARRAY containing the node object,
not a mapping - and the callback is invoked when the promise settles
(getResolve / getReject below). -/
def Djedi.get (d : Djedi) (passed : Node) (cb : Nat) : Djedi × CallResult :=
  let node := normalizeNode d.options passed
  match lookupA d.nodes node.uri with
  | some existingNode => (d, CallResult.sync (CbArg.node existingNode))
  | none =>
      let req : Request := { apiUrl := "/djedi/load_many", body := RequestBody.arr [node] }
      ({ d with requests := d.requests ++ [req] },
       CallResult.pendingGet { uri := node.uri, request := req, cb := cb })

/-- Argument delivered by the success handler in Djedi.prototype.get:
callback(results[uri] || missingUriError(uri)); the JS truthiness test
sends absent URIs, null values AND empty-string values to the
missing-URI error. -/
def getArg (results : Results) (uri : String) : CbArg :=
  match lookupA results uri with
  | some (some v) =>
      if v = "" then CbArg.error (JSError.missingUri uri) else CbArg.raw v
  | _ => CbArg.error (JSError.missingUri uri)

/-- Resolution of the load request issued by get: loadMany first merges
the results into the cache (addNodes), then the get success handler
invokes the callback. -/
def getResolve (d : Djedi) (p : PendingGet) (results : Results) :
    Djedi × (Nat × CbArg) :=
  (addNodes d results, (p.cb, getArg results p.uri))

/-- Rejection of the load request issued by get: the callback receives
the error. -/
def getReject (p : PendingGet) (e : JSError) : Nat × CbArg :=
  (p.cb, CbArg.error e)

/-- Mirror of Djedi.prototype.getBatched. With batching disabled it
behaves exactly as get; otherwise a cache hit is synchronous, and a miss
merges the callback into the batch queue entry for the URI and starts
the flush timer when none is running. -/
def Djedi.getBatched (d : Djedi) (passed : Node) (cb : Nat) : Djedi × CallResult :=
  if d.options.batchInterval ≤ 0 then
    Djedi.get d passed cb
  else
    let node := normalizeNode d.options passed
    match lookupA d.nodes node.uri with
    | some existingNode => (d, CallResult.sync (CbArg.node existingNode))
    | none =>
        let previous := (lookupA d.batch.queue node.uri).getD
          { node := node, callbacks := [] }
        let entry : QueueEntry :=
          { previous with callbacks := previous.callbacks ++ [cb] }
        let queue2 := setA d.batch.queue node.uri entry
        match d.batch.timeoutId with
        | some tid =>
            ({ d with batch := { timeoutId := some tid, queue := queue2 } },
             CallResult.queued)
        | none =>
            ({ d with
               batch := { timeoutId := some d.nextTimerId, queue := queue2 }
               activeTimers := d.activeTimers ++ [d.nextTimerId]
               nextTimerId := d.nextTimerId + 1 },
             CallResult.queued)

/-- Mirror of Djedi.prototype._flushBatch up to the loadMany call: build
the uri-to-value mapping from the queue, replace the batch with a fresh
empty one, and post the mapping to /djedi/load_many. The detached queue
travels with the pending request. -/
def Djedi.flushBatch (d : Djedi) : Djedi × PendingLoad :=
  let queue := d.batch.queue
  let nodes : List (String × Option String) :=
    queue.map (fun kv => (kv.1, kv.2.node.value))
  let req : Request := { apiUrl := "/djedi/load_many", body := RequestBody.obj nodes }
  ({ d with batch := makeEmptyBatch, requests := d.requests ++ [req] },
   { queue := queue, request := req })

/-- Argument delivered per queued URI by the _flushBatch success handler:
results[uri] when it is neither absent nor null, wrapped as {uri, value},
otherwise missingUriError(uri). -/
def flushArg (results : Results) (uri : String) : CbArg :=
  match lookupA results uri with
  | some (some v) => CbArg.node { uri := uri, value := some v }
  | _ => CbArg.error (JSError.missingUri uri)

/-- Callback invocations performed by the _flushBatch success handler,
in queue order. -/
def flushDeliveries (queue : List (String × QueueEntry)) (results : Results) :
    List (Nat × CbArg) :=
  match queue with
  | [] => []
  | (uri, data) :: rest =>
      data.callbacks.map (fun cb => (cb, flushArg results uri))
        ++ flushDeliveries rest results

/-- Callback invocations performed by the _flushBatch error handler: the
same error object goes to every callback of every queued URI. -/
def rejectDeliveries (queue : List (String × QueueEntry)) (e : JSError) :
    List (Nat × CbArg) :=
  match queue with
  | [] => []
  | (_, data) :: rest =>
      data.callbacks.map (fun cb => (cb, CbArg.error e))
        ++ rejectDeliveries rest e

/-- Resolution of the batched load: loadMany merges the results into the
cache (addNodes), then the _flushBatch success handler walks the
detached queue. -/
def flushResolve (d : Djedi) (p : PendingLoad) (results : Results) :
    Djedi × List (Nat × CbArg) :=
  (addNodes d results, flushDeliveries p.queue results)

/-- Rejection of the batched load: the _flushBatch error handler walks
the detached queue delivering the error; no state is touched. -/
def flushReject (p : PendingLoad) (e : JSError) : List (Nat × CbArg) :=
  rejectDeliveries p.queue e

/-- Mirror of Djedi.prototype.reportRenderedNode. The source calls
this._renderedNodes.set({value: node.value, numInstances: 1}) with a
single argument, so the stored KEY is the freshly allocated entry object
and the stored value is undefined; the lookup this._renderedNodes.get(
node.uri) uses the URI string and therefore never finds such an entry,
which makes the increment branch unreachable. The increment branch is
embedded nonetheless, exactly as written. -/
def Djedi.reportRenderedNode (d : Djedi) (passed : Node) : Djedi :=
  let node := normalizeNode d.options passed
  match lookupA d.renderedNodes (RKey.str node.uri) with
  | some (some r) =>
      let entry := heapGetD d.heap r
      { d with heap := d.heap.set r { entry with numInstances := entry.numInstances + 1 } }
  | _ =>
      let r := d.heap.length
      { d with
        heap := d.heap ++ [{ value := node.value, numInstances := 1 }]
        renderedNodes := setA d.renderedNodes (RKey.obj r) none
        djediNodes := setA d.djediNodes (djediNodesUri d.options node.uri) node.value }

/-- Mirror of Djedi.prototype.reportRemovedNode: look the URI up in
_renderedNodes, return early when absent (with the single-argument set
bug above this is always the case), otherwise decrement and delete at
zero from both the registry and _DJEDI_NODES. -/
def Djedi.reportRemovedNode (d : Djedi) (passedUri : String) : Djedi :=
  let uri := normalizeUri d.options passedUri
  match lookupA d.renderedNodes (RKey.str uri) with
  | some (some r) =>
      let entry := heapGetD d.heap r
      let entry2 := { entry with numInstances := entry.numInstances - 1 }
      let heap2 := d.heap.set r entry2
      if entry2.numInstances ≤ 0 then
        { d with
          heap := heap2
          renderedNodes := eraseA d.renderedNodes (RKey.str uri)
          djediNodes := eraseA d.djediNodes (djediNodesUri d.options uri) }
      else
        { d with heap := heap2 }
  | _ => d

/-- Mirror of Djedi.prototype.resetOptions: replace the options object
with fresh defaults. -/
def Djedi.resetOptions (d : Djedi) : Djedi :=
  { d with options := makeDefaultOptions }

/-- Mirror of Djedi.prototype.resetNodes: clear a pending flush timer if
any, then replace the cache, the rendered-node registry, the batch and
the _DJEDI_NODES object with fresh empty ones. -/
def Djedi.resetNodes (d : Djedi) : Djedi :=
  let d1 :=
    match d.batch.timeoutId with
    | some tid =>
        { d with
          activeTimers := d.activeTimers.erase tid
          cancelledTimers := d.cancelledTimers ++ [tid] }
    | none => d
  { d1 with
    nodes := []
    renderedNodes := []
    batch := makeEmptyBatch
    djediNodes := [] }

/-- Version-stripped URIs of the rendered-node registry entries that are
stored under a URI-string key and whose reference count is non-zero.
Under the intended design every registry entry is keyed by the node URI
string and its count lives in the stored entry object. -/
def registryVisibleUris (d : Djedi) : List String :=
  d.renderedNodes.filterMap
    (fun kv =>
      match kv with
      | (RKey.str uri, some r) =>
          if (heapGetD d.heap r).numInstances ≠ 0 then
            some (djediNodesUri d.options uri)
          else none
      | _ => none)

/-- Claimed invariant: the keys of the externally visible _DJEDI_NODES
map are exactly the version-stripped URIs of the rendered-node registry
entries whose reference count is non-zero. -/
def renderedNodesInvariant (d : Djedi) : Prop :=
  ∀ u : String, (lookupA d.djediNodes u).isSome = true ↔ u ∈ registryVisibleUris d

/-! ### Concrete example data used by witnesses and counterexamples -/

/-- Example input node with a relative URI and a default value. -/
def exNode : Node := { uri := "page/title", value := some "Hello" }

/-- Normalized form of the example node URI under default options. -/
def exUri : String := "i18n://en-us@page/title.txt"

/-- Second example input node. -/
def exNodeB : Node := { uri := "page/body", value := none }

/-- Normalized form of the second example node URI. -/
def exUriB : String := "i18n://en-us@page/body.txt"

/-- Example batch queue with two URIs and three callbacks. -/
def exQueue : List (String × QueueEntry) :=
  [(exUri, { node := { uri := exUri, value := some "Hello" }, callbacks := [5] }),
   (exUriB, { node := { uri := exUriB, value := none }, callbacks := [6, 7] })]

/-- Example pending batched load carrying exQueue. -/
def exPendingLoad : PendingLoad :=
  { queue := exQueue
    request := { apiUrl := "/djedi/load_many",
                 body := RequestBody.obj [(exUri, some "Hello"), (exUriB, none)] } }

/-- Example request error (simulated network failure, no response). -/
def exError : JSError := JSError.requestError (-1) "network error"

/-- Example pending single-node load as issued by get for exNode. -/
def exPendingGet : PendingGet :=
  { uri := exUri
    request := { apiUrl := "/djedi/load_many",
                 body := RequestBody.arr [{ uri := exUri, value := some "Hello" }] }
    cb := 0 }

/-- Example state with a pending flush timer (id 3). -/
def exTimerState : Djedi :=
  { initialDjedi with
    nodes := [(exUri, { uri := exUri, value := some "Hello" })]
    batch := { timeoutId := some 3, queue := [] }
    activeTimers := [3]
    nextTimerId := 4 }

/-- Example state with a non-empty batch (timer 0 pending) and an empty
cache, as found right before a flush timer fires. -/
def exFlushState : Djedi :=
  { initialDjedi with
    batch := { timeoutId := some 0, queue := exQueue }
    activeTimers := [0]
    nextTimerId := 1 }

/-! ### Helper lemmas -/

theorem lookupA_setA_self {α β : Type} [DecidableEq α]
    (l : List (α × β)) (k : α) (v : β) : lookupA (setA l k v) k = some v := by
  induction l with
  | nil => simp [setA, lookupA]
  | cons kv rest ih =>
    obtain ⟨k0, v0⟩ := kv
    by_cases h : k0 = k
    · simp [setA, h, lookupA]
    · simp [setA, h, lookupA, ih]

theorem lookupA_setA_ne {α β : Type} [DecidableEq α]
    (l : List (α × β)) (k k2 : α) (v : β) (h : k ≠ k2) :
    lookupA (setA l k v) k2 = lookupA l k2 := by
  induction l with
  | nil => simp [setA, lookupA, h]
  | cons kv rest ih =>
    obtain ⟨k0, v0⟩ := kv
    by_cases h0 : k0 = k
    · subst h0
      simp [setA, lookupA, h]
    · simp [setA, h0, lookupA, ih]

theorem lookupA_mem {α β : Type} [DecidableEq α]
    {l : List (α × β)} {k : α} {v : β} (h : lookupA l k = some v) : (k, v) ∈ l := by
  induction l with
  | nil => simp [lookupA] at h
  | cons kv rest ih =>
    obtain ⟨k0, v0⟩ := kv
    by_cases h0 : k0 = k
    · subst h0
      simp [lookupA] at h
      simp [h]
    · simp [lookupA, h0] at h
      exact List.mem_cons_of_mem _ (ih h)

theorem startsWithChars_append_drop (p s : List Char)
    (h : startsWithChars p s = true) : p ++ s.drop p.length = s := by
  induction p generalizing s with
  | nil => simp
  | cons c cs ih =>
    cases s with
    | nil => simp [startsWithChars] at h
    | cons d ds =>
      simp only [startsWithChars, Bool.and_eq_true, decide_eq_true_eq] at h
      simp [h.1, ih ds h.2]

theorem splitFirst_sound (sep : List Char) (s a b : List Char)
    (h : splitFirst sep s = some (a, b)) : a ++ sep ++ b = s := by
  induction s generalizing a b with
  | nil => simp [splitFirst] at h
  | cons c rest ih =>
    by_cases hs : startsWithChars sep (c :: rest) = true
    · simp only [splitFirst, hs, if_true, Option.some.injEq, Prod.mk.injEq] at h
      obtain ⟨ha, hb⟩ := h
      subst ha
      subst hb
      simpa using startsWithChars_append_drop sep (c :: rest) hs
    · simp only [splitFirst, hs, if_false, Bool.false_eq_true] at h
      cases hrec : splitFirst sep rest with
      | none => simp [hrec] at h
      | some ab =>
        obtain ⟨a0, b0⟩ := ab
        simp only [hrec, Option.some.injEq, Prod.mk.injEq] at h
        obtain ⟨ha, hb⟩ := h
        subst ha
        subst hb
        have := ih a0 b0 hrec
        simp [← this]

theorem splitLastAux_sound (fuel : Nat) (sep s a b : List Char)
    (h : splitLastAux fuel sep s = some (a, b)) : a ++ sep ++ b = s := by
  induction fuel generalizing s a b with
  | zero => simp [splitLastAux] at h
  | succ n ih =>
    simp only [splitLastAux] at h
    cases h1 : splitFirst sep s with
    | none => simp [h1] at h
    | some ab =>
      obtain ⟨a1, b1⟩ := ab
      simp only [h1] at h
      cases h2 : splitLastAux n sep b1 with
      | none =>
        simp only [h2, Option.some.injEq, Prod.mk.injEq] at h
        obtain ⟨ha, hb⟩ := h
        subst ha
        subst hb
        exact splitFirst_sound sep s _ _ h1
      | some ab2 =>
        obtain ⟨a2, b2⟩ := ab2
        simp only [h2, Option.some.injEq, Prod.mk.injEq] at h
        obtain ⟨ha, hb⟩ := h
        subst ha
        subst hb
        have hinner := ih b1 a2 b2 h2
        have houter := splitFirst_sound sep s a1 b1 h1
        rw [← houter, ← hinner]
        simp

theorem splitLast_sound (sep s a b : List Char)
    (h : splitLast sep s = some (a, b)) : a ++ sep ++ b = s :=
  splitLastAux_sound (s.length + 1) sep s a b h

theorem splitFirstOpt_some_sound (sep : String) (s : List Char)
    (a : String) (r : List Char) (h : splitFirstOpt sep s = (some a, r)) :
    a.data ++ sep.data ++ r = s := by
  unfold splitFirstOpt at h
  cases h1 : splitFirst sep.data s with
  | none => simp [h1] at h
  | some ab =>
    obtain ⟨a0, b0⟩ := ab
    simp only [h1, Prod.mk.injEq, Option.some.injEq] at h
    obtain ⟨ha, hb⟩ := h
    subst hb
    have := splitFirst_sound sep.data s a0 _ h1
    rw [← ha]
    simpa using this

theorem splitLastOpt_some_sound (sep : String) (s : List Char)
    (r : List Char) (b : String) (h : splitLastOpt sep s = (r, some b)) :
    r ++ sep.data ++ b.data = s := by
  unfold splitLastOpt at h
  cases h1 : splitLast sep.data s with
  | none => simp [h1] at h
  | some ab =>
    obtain ⟨a0, b0⟩ := ab
    simp only [h1, Prod.mk.injEq, Option.some.injEq] at h
    obtain ⟨ha, hb⟩ := h
    subst ha
    have := splitLast_sound sep.data s _ b0 h1
    rw [← hb]
    simpa using this

theorem rejectDeliveries_snd (queue : List (String × QueueEntry)) (e : JSError) :
    ∀ dl ∈ rejectDeliveries queue e, dl.2 = CbArg.error e := by
  induction queue with
  | nil => intro dl h; simp [rejectDeliveries] at h
  | cons kv rest ih =>
    intro dl h
    obtain ⟨uri, data⟩ := kv
    simp only [rejectDeliveries, List.mem_append, List.mem_map] at h
    rcases h with ⟨cb, _, hEq⟩ | h
    · rw [← hEq]
    · exact ih dl h

theorem rejectDeliveries_complete (queue : List (String × QueueEntry)) (e : JSError)
    (uri : String) (entry : QueueEntry) (cb : Nat)
    (hq : (uri, entry) ∈ queue) (hc : cb ∈ entry.callbacks) :
    (cb, CbArg.error e) ∈ rejectDeliveries queue e := by
  induction queue with
  | nil => simp at hq
  | cons kv rest ih =>
    obtain ⟨u0, d0⟩ := kv
    simp only [rejectDeliveries, List.mem_append, List.mem_map]
    rcases List.mem_cons.mp hq with hEq | hmem
    · cases hEq
      left
      exact ⟨cb, hc, rfl⟩
    · right
      exact ih hmem

theorem mem_flushDeliveries (queue : List (String × QueueEntry)) (results : Results) :
    ∀ dl ∈ flushDeliveries queue results,
      ∃ uri entry, (uri, entry) ∈ queue ∧ dl.1 ∈ entry.callbacks := by
  induction queue with
  | nil => intro dl h; simp [flushDeliveries] at h
  | cons kv rest ih =>
    intro dl h
    obtain ⟨u0, d0⟩ := kv
    simp only [flushDeliveries, List.mem_append, List.mem_map] at h
    rcases h with ⟨cb, hcb, hEq⟩ | h
    · exact ⟨u0, d0, List.mem_cons_self _ _, by rw [← hEq]; exact hcb⟩
    · obtain ⟨uri, entry, hmem, hcb⟩ := ih dl h
      exact ⟨uri, entry, List.mem_cons_of_mem _ hmem, hcb⟩

theorem mem_rejectDeliveries (queue : List (String × QueueEntry)) (e : JSError) :
    ∀ dl ∈ rejectDeliveries queue e,
      ∃ uri entry, (uri, entry) ∈ queue ∧ dl.1 ∈ entry.callbacks := by
  induction queue with
  | nil => intro dl h; simp [rejectDeliveries] at h
  | cons kv rest ih =>
    intro dl h
    obtain ⟨u0, d0⟩ := kv
    simp only [rejectDeliveries, List.mem_append, List.mem_map] at h
    rcases h with ⟨cb, hcb, hEq⟩ | h
    · exact ⟨u0, d0, List.mem_cons_self _ _, by rw [← hEq]; exact hcb⟩
    · obtain ⟨uri, entry, hmem, hcb⟩ := ih dl h
      exact ⟨uri, entry, List.mem_cons_of_mem _ hmem, hcb⟩

/-! ### Claim theorems -/

/-- C10: resetOptions replaces only the configuration object with its
built-in defaults; the node cache, the rendered-node registry, the
externally visible map, and any pending batch queue or flush timer are
left unchanged. -/
theorem c10_resetOptions_replaces_only_options (d : Djedi) :
    (Djedi.resetOptions d).options = makeDefaultOptions ∧
    (Djedi.resetOptions d).nodes = d.nodes ∧
    (Djedi.resetOptions d).renderedNodes = d.renderedNodes ∧
    (Djedi.resetOptions d).heap = d.heap ∧
    (Djedi.resetOptions d).batch = d.batch ∧
    (Djedi.resetOptions d).djediNodes = d.djediNodes ∧
    (Djedi.resetOptions d).nextTimerId = d.nextTimerId ∧
    (Djedi.resetOptions d).activeTimers = d.activeTimers ∧
    (Djedi.resetOptions d).cancelledTimers = d.cancelledTimers ∧
    (Djedi.resetOptions d).requests = d.requests :=
  ⟨rfl, rfl, rfl, rfl, rfl, rfl, rfl, rfl, rfl, rfl⟩

/-- C4: the claim says get posts a MAPPING from the normalized URI to the
default value to the load_many endpoint. The source instead posts
loadMany([node]), a single-element array containing the whole node
object: this theorem evaluates get at an uncached node and exhibits the
array-shaped body. -/
theorem c4_get_posts_array_not_mapping :
    (Djedi.get initialDjedi exNode 0).1.requests
      = [{ apiUrl := "/djedi/load_many",
           body := RequestBody.arr [{ uri := exUri, value := some "Hello" }] }] ∧
    (Djedi.get initialDjedi exNode 0).1.requests
      ≠ [{ apiUrl := "/djedi/load_many",
           body := RequestBody.obj [(exUri, some "Hello")] }] := by
  constructor
  · rfl
  · decide

/-- C2: the claim says two reportRenderedNode calls followed by two
reportRemovedNode calls delete the node from both the registry and the
externally visible map. In the source, _renderedNodes.set is called with
a single argument, so the registry is keyed by the entry object itself;
the string lookup in both methods never finds an entry, every render
inserts a fresh object-keyed entry, and removal is a no-op: after two
renders and two removals the externally visible map still contains the
node and the registry still holds both object-keyed entries. -/
theorem c2_second_removal_does_not_delete :
    lookupA (Djedi.reportRemovedNode (Djedi.reportRemovedNode
        (Djedi.reportRenderedNode (Djedi.reportRenderedNode initialDjedi exNode) exNode)
        exUri) exUri).djediNodes exUri = some (some "Hello") ∧
    (Djedi.reportRemovedNode (Djedi.reportRemovedNode
        (Djedi.reportRenderedNode (Djedi.reportRenderedNode initialDjedi exNode) exNode)
        exUri) exUri).renderedNodes = [(RKey.obj 0, none), (RKey.obj 1, none)] ∧
    lookupA (Djedi.reportRenderedNode (Djedi.reportRenderedNode initialDjedi exNode)
        exNode).renderedNodes (RKey.str exUri) = none := by
  refine ⟨?_, ?_, ?_⟩ <;> decide

/-- C3: the claimed invariant - the keys of the externally visible map
are exactly the version-stripped URIs of the registry entries with
non-zero reference count - fails on the code: after one render and one
removal the external map still holds the URI while the registry contains
no URI-keyed entry at all (the single-argument set bug keys entries by
the entry object). -/
theorem c3_invariant_fails_after_render_remove :
    ¬ renderedNodesInvariant
        (Djedi.reportRemovedNode (Djedi.reportRenderedNode initialDjedi exNode) exUri) := by
  intro h
  exact absurd ((h exUri).mp (by decide)) (by decide)

/-- C6: when a batched load request fails, the _flushBatch error handler
delivers the same single error object to every callback queued in that
batch, across all queued URIs: every delivery carries exactly the error
object, and every queued callback receives a delivery with it. -/
theorem c6_batch_failure_same_error_to_all (p : PendingLoad) (e : JSError) :
    (∀ dl ∈ flushReject p e, dl.2 = CbArg.error e) ∧
    (∀ uri entry cb, (uri, entry) ∈ p.queue → cb ∈ entry.callbacks →
      (cb, CbArg.error e) ∈ flushReject p e) :=
  ⟨rejectDeliveries_snd p.queue e,
   fun uri entry cb hq hc => rejectDeliveries_complete p.queue e uri entry cb hq hc⟩

/-- Witness for C6 at a concrete two-URI, three-callback batch and a
concrete network error. -/
theorem c6_batch_failure_same_error_to_all_witness :
    (exUriB, { node := { uri := exUriB, value := none }, callbacks := [6, 7] }) ∈
        exPendingLoad.queue ∧
    7 ∈ ({ node := { uri := exUriB, value := none }, callbacks := [6, 7] } : QueueEntry).callbacks ∧
    (7, CbArg.error exError) ∈ flushReject exPendingLoad exError :=
  ⟨by decide, by decide,
   (c6_batch_failure_same_error_to_all exPendingLoad exError).2 exUriB
     { node := { uri := exUriB, value := none }, callbacks := [6, 7] } 7
     (by decide) (by decide)⟩

/-- C5 counterexample: the claim says the missing-URI error is delivered
if and only if the server response omits the requested URI. Evaluating
the get success handler at a response that CONTAINS the URI with the
empty-string value shows the missing-URI error delivered anyway, because
the source uses the truthiness test results[uri] || missingUriError(uri). -/
theorem c5_missing_iff_omitted_counterexample :
    (Djedi.get initialDjedi exNode 0).2 = CallResult.pendingGet exPendingGet ∧
    lookupA [(exUri, some "")] exPendingGet.uri = some (some "") ∧
    (getResolve (Djedi.get initialDjedi exNode 0).1 exPendingGet [(exUri, some "")]).2
      = (0, CbArg.error (JSError.missingUri exUri)) := by
  refine ⟨?_, ?_, ?_⟩ <;> decide

/-- C5 amended: when the load request of get succeeds, the callback
receives the missing-URI error - whose status is the fixed sentinel
1404, distinct from the -1 of a response-less failure and from any HTTP
response status below 1000 - if and only if the server response omits
the requested URI, maps it to null, or maps it to the empty string; for
any other (truthy) value the callback receives that raw value. -/
theorem c5_missing_error_iff_falsy_value (d : Djedi) (p : PendingGet) (results : Results) :
    ((getResolve d p results).2 = (p.cb, CbArg.error (JSError.missingUri p.uri)) ↔
      (lookupA results p.uri = none ∨ lookupA results p.uri = some none ∨
       lookupA results p.uri = some (some ""))) ∧
    (∀ v, lookupA results p.uri = some (some v) → v ≠ "" →
      (getResolve d p results).2 = (p.cb, CbArg.raw v)) ∧
    errStatus (JSError.missingUri p.uri) = 1404 ∧
    postErrorStatus none ≠ 1404 ∧
    (∀ s : Nat, s ≤ 999 → postErrorStatus (some s) ≠ 1404) := by
  refine ⟨?_, ?_, rfl, by decide, ?_⟩
  · cases h : lookupA results p.uri with
    | none => simp [getResolve, getArg, h]
    | some ov =>
      cases ov with
      | none => simp [getResolve, getArg, h]
      | some v =>
        by_cases hv : v = ""
        · subst hv
          simp [getResolve, getArg, h]
        · simp [getResolve, getArg, h, hv]
  · intro v hv hne
    simp [getResolve, getArg, hv, hne]
  · intro s hs
    simp only [postErrorStatus, ne_eq]
    omega

/-- Witness for C5 amended at a concrete response carrying a non-empty
value for the requested URI. -/
theorem c5_missing_error_iff_falsy_value_witness :
    lookupA [(exUri, some "Hello")] exPendingGet.uri = some (some "Hello") ∧
    ("Hello" : String) ≠ "" ∧
    (getResolve initialDjedi exPendingGet [(exUri, some "Hello")]).2 = (0, CbArg.raw "Hello") :=
  ⟨by decide, by decide,
   (c5_missing_error_iff_falsy_value initialDjedi exPendingGet [(exUri, some "Hello")]).2.1
     "Hello" (by decide) (by decide)⟩

/-- C9: for every URI string in which the parse under the configured
separators finds all five fields explicitly (with non-empty values, so
that serialization keeps every separator), stringifying the parse - the
composition _normalizeUri = _stringifyUri after _parseUri, including the
defaults application which leaves explicit fields untouched - returns
the original string. -/
theorem c9_parse_stringify_roundtrip (opts : Options) (s sc ns p e v : String)
    (hp : parseUri opts.uri.separators s =
      { scheme := some sc, namespace_ := some ns, path := some p,
        ext := some e, version := some v })
    (hsc : sc ≠ "") (hns : ns ≠ "") (he : e ≠ "") (hv : v ≠ "") :
    normalizeUri opts s = s := by
  rcases hh1 : splitFirstOpt opts.uri.separators.scheme s.data with ⟨sch, r1⟩
  rcases hh2 : splitFirstOpt opts.uri.separators.namespace_ r1 with ⟨nso, r2⟩
  rcases hh3 : splitLastOpt opts.uri.separators.version r2 with ⟨r3, vo⟩
  rcases hh4 : splitLastOpt opts.uri.separators.ext r3 with ⟨r4, eo⟩
  unfold parseUri at hp
  rw [hh1] at hp
  dsimp only at hp
  rw [hh2] at hp
  dsimp only at hp
  rw [hh3] at hp
  dsimp only at hp
  rw [hh4] at hp
  dsimp only at hp
  simp only [RawUri.mk.injEq] at hp
  obtain ⟨hsch, hnso, hpath, heo, hvo⟩ := hp
  subst hsch
  subst hnso
  subst heo
  subst hvo
  have e1 := splitFirstOpt_some_sound _ _ _ _ hh1
  have e2 := splitFirstOpt_some_sound _ _ _ _ hh2
  have e3 := splitLastOpt_some_sound _ _ _ _ hh3
  have e4 := splitLastOpt_some_sound _ _ _ _ hh4
  have hP : String.mk r4 = p := Option.some.inj hpath
  have hpd : p.data = r4 := by rw [← hP]
  unfold normalizeUri
  unfold parseUri
  rw [hh1]
  dsimp only
  rw [hh2]
  dsimp only
  rw [hh3]
  dsimp only
  rw [hh4]
  dsimp only
  show stringifyUri opts.uri.separators
    (applyUriDefaults
      { scheme := some sc, namespace_ := some ns, path := some (String.mk r4),
        ext := some e, version := some v } opts.uri.defaults opts.uri.namespaceByScheme) = s
  rw [hP]
  apply String.ext
  simp only [applyUriDefaults, Option.getD_some, stringifyUri]
  rw [if_neg hsc, if_neg hns, if_neg he, if_neg hv]
  simp only [String.data_append]
  rw [← e1, ← e2, ← e3, ← e4, ← hpd]
  simp [List.append_assoc]

/-- Witness for C9 at a fully explicit URI under the default separator
configuration. -/
theorem c9_parse_stringify_roundtrip_witness :
    parseUri makeDefaultOptions.uri.separators "i18n://en-us@page/title.txt#1" =
      { scheme := some "i18n", namespace_ := some "en-us", path := some "page/title",
        ext := some "txt", version := some "1" } ∧
    normalizeUri makeDefaultOptions "i18n://en-us@page/title.txt#1"
      = "i18n://en-us@page/title.txt#1" :=
  ⟨by decide,
   c9_parse_stringify_roundtrip makeDefaultOptions "i18n://en-us@page/title.txt#1"
     "i18n" "en-us" "page/title" "txt" "1" (by decide) (by decide) (by decide)
     (by decide) (by decide)⟩

/-- C8: resetNodes cancels the pending flush timer, clears the node
cache, the rendered-node registry and the externally visible map, and a
subsequent get for ANY node (hence also a previously cached URI) takes
the uncached path: it issues a fresh network request instead of invoking
the callback synchronously from the cache. -/
theorem c8_resetNodes_clears_state (d : Djedi) (tid : Nat) (n : Node) (cb : Nat)
    (ht : d.batch.timeoutId = some tid) :
    (Djedi.resetNodes d).nodes = [] ∧
    (Djedi.resetNodes d).renderedNodes = [] ∧
    (Djedi.resetNodes d).djediNodes = [] ∧
    (Djedi.resetNodes d).batch = makeEmptyBatch ∧
    tid ∈ (Djedi.resetNodes d).cancelledTimers ∧
    (Djedi.resetNodes d).activeTimers = d.activeTimers.erase tid ∧
    (Djedi.get (Djedi.resetNodes d) n cb).2 = CallResult.pendingGet
      { uri := normalizeUri d.options n.uri,
        request := { apiUrl := "/djedi/load_many",
                     body := RequestBody.arr [normalizeNode d.options n] },
        cb := cb } ∧
    (Djedi.get (Djedi.resetNodes d) n cb).1.requests
      = (Djedi.resetNodes d).requests ++
        [{ apiUrl := "/djedi/load_many", body := RequestBody.arr [normalizeNode d.options n] }] := by
  unfold Djedi.resetNodes
  rw [ht]
  refine ⟨rfl, rfl, rfl, rfl, by simp, rfl, rfl, rfl⟩

/-- Witness for C8 at a concrete state whose cache holds the example URI
and whose batch has the pending timer 3: after resetNodes, a get for the
previously cached node issues a request. -/
theorem c8_resetNodes_clears_state_witness :
    exTimerState.batch.timeoutId = some 3 ∧
    lookupA exTimerState.nodes exUri = some { uri := exUri, value := some "Hello" } ∧
    (Djedi.resetNodes exTimerState).nodes = [] ∧
    3 ∈ (Djedi.resetNodes exTimerState).cancelledTimers ∧
    (Djedi.get (Djedi.resetNodes exTimerState) exNode 0).2 = CallResult.pendingGet
      { uri := normalizeUri exTimerState.options exNode.uri,
        request := { apiUrl := "/djedi/load_many",
                     body := RequestBody.arr [normalizeNode exTimerState.options exNode] },
        cb := 0 } :=
  ⟨rfl, by decide,
   (c8_resetNodes_clears_state exTimerState 3 exNode 0 rfl).1,
   (c8_resetNodes_clears_state exTimerState 3 exNode 0 rfl).2.2.2.2.1,
   (c8_resetNodes_clears_state exTimerState 3 exNode 0 rfl).2.2.2.2.2.2.1⟩

theorem getBatched_uncached_fresh (d : Djedi) (n : Node) (cb : Nat)
    (hI : 0 < d.options.batchInterval)
    (hb : d.batch = makeEmptyBatch)
    (hc : lookupA d.nodes (normalizeUri d.options n.uri) = none) :
    Djedi.getBatched d n cb =
      ({ d with
         batch := { timeoutId := some d.nextTimerId,
                    queue := [(normalizeUri d.options n.uri,
                              { node := normalizeNode d.options n, callbacks := [cb] })] }
         activeTimers := d.activeTimers ++ [d.nextTimerId]
         nextTimerId := d.nextTimerId + 1 }, CallResult.queued) := by
  have hI2 : ¬ d.options.batchInterval ≤ 0 := by omega
  have hc2 : lookupA d.nodes (normalizeNode d.options n).uri = none := hc
  unfold Djedi.getBatched
  rw [if_neg hI2, hb]
  dsimp only
  rw [hc2]
  rfl

theorem getBatched_uncached_timerSet_newUri (d : Djedi) (n : Node) (cb : Nat) (tid : Nat)
    (hI : 0 < d.options.batchInterval)
    (ht : d.batch.timeoutId = some tid)
    (hc : lookupA d.nodes (normalizeUri d.options n.uri) = none)
    (hq : lookupA d.batch.queue (normalizeUri d.options n.uri) = none) :
    Djedi.getBatched d n cb =
      ({ d with
         batch := { timeoutId := some tid,
                    queue := setA d.batch.queue (normalizeUri d.options n.uri)
                      { node := normalizeNode d.options n, callbacks := [cb] } } },
       CallResult.queued) := by
  have hI2 : ¬ d.options.batchInterval ≤ 0 := by omega
  have hc2 : lookupA d.nodes (normalizeNode d.options n).uri = none := hc
  have hq2 : lookupA d.batch.queue (normalizeNode d.options n).uri = none := hq
  unfold Djedi.getBatched
  rw [if_neg hI2]
  dsimp only
  rw [hc2, hq2, ht]
  rfl

/-- C7: a getBatched call arriving after the batch timer has fired (the
flush detached the queue and replaced the batch with a fresh empty one
before issuing the load request) but before the in-flight response
resolves is enqueued into a fresh, independent batch with its own
singleton queue and its own newly allocated timer; resolving or
rejecting the earlier flush leaves the new batch untouched and delivers
only to callbacks that were queued in the detached queue. -/
theorem c7_new_batch_independent_of_inflight_flush
    (d : Djedi) (n : Node) (cb : Nat) (results : Results) (e : JSError)
    (hI : 0 < d.options.batchInterval)
    (hc : lookupA d.nodes (normalizeUri d.options n.uri) = none) :
    (Djedi.flushBatch d).1.batch = makeEmptyBatch ∧
    (Djedi.flushBatch d).2.queue = d.batch.queue ∧
    (Djedi.getBatched (Djedi.flushBatch d).1 n cb).1.batch.queue
      = [(normalizeUri d.options n.uri,
          { node := normalizeNode d.options n, callbacks := [cb] })] ∧
    (Djedi.getBatched (Djedi.flushBatch d).1 n cb).1.batch.timeoutId = some d.nextTimerId ∧
    (flushResolve (Djedi.getBatched (Djedi.flushBatch d).1 n cb).1
        (Djedi.flushBatch d).2 results).1.batch
      = (Djedi.getBatched (Djedi.flushBatch d).1 n cb).1.batch ∧
    (∀ dl ∈ (flushResolve (Djedi.getBatched (Djedi.flushBatch d).1 n cb).1
        (Djedi.flushBatch d).2 results).2,
      ∃ uri entry, (uri, entry) ∈ d.batch.queue ∧ dl.1 ∈ entry.callbacks) ∧
    (∀ dl ∈ flushReject (Djedi.flushBatch d).2 e,
      ∃ uri entry, (uri, entry) ∈ d.batch.queue ∧ dl.1 ∈ entry.callbacks) := by
  have hfresh := getBatched_uncached_fresh (Djedi.flushBatch d).1 n cb hI rfl hc
  rw [hfresh]
  refine ⟨rfl, rfl, rfl, rfl, rfl, ?_, ?_⟩
  · exact mem_flushDeliveries d.batch.queue results
  · exact mem_rejectDeliveries d.batch.queue e

/-- Witness for C7 at a concrete state with a two-entry queue whose
timer has just fired: the follow-up call lands in a fresh singleton
batch with the next timer id. -/
theorem c7_new_batch_independent_of_inflight_flush_witness :
    (0 : Int) < exFlushState.options.batchInterval ∧
    lookupA exFlushState.nodes (normalizeUri exFlushState.options exNode.uri) = none ∧
    (Djedi.flushBatch exFlushState).1.batch = makeEmptyBatch ∧
    (Djedi.getBatched (Djedi.flushBatch exFlushState).1 exNode 9).1.batch.timeoutId
      = some exFlushState.nextTimerId :=
  ⟨by decide, rfl,
   (c7_new_batch_independent_of_inflight_flush exFlushState exNode 9 [] exError
     (by decide) rfl).1,
   (c7_new_batch_independent_of_inflight_flush exFlushState exNode 9 [] exError
     (by decide) rfl).2.2.2.1⟩

/-- C1: two getBatched calls with distinct uncached (normalized) URIs
made into one debounce window (batchInterval positive, batch initially
empty) are both queued without issuing any request; the second call
reuses the timer started by the first; when that timer fires, exactly
one network request is issued, its mapping body covers both URIs, and
the success handler of that single response delivers a per-URI result to
each of the two queued callbacks. -/
theorem c1_one_request_covers_both_uris
    (d0 : Djedi) (n1 n2 : Node) (cb1 cb2 : Nat) (results : Results)
    (hI : 0 < d0.options.batchInterval)
    (hb : d0.batch = makeEmptyBatch)
    (hne : normalizeUri d0.options n1.uri ≠ normalizeUri d0.options n2.uri)
    (hc1 : lookupA d0.nodes (normalizeUri d0.options n1.uri) = none)
    (hc2 : lookupA d0.nodes (normalizeUri d0.options n2.uri) = none) :
    (Djedi.getBatched d0 n1 cb1).2 = CallResult.queued ∧
    (Djedi.getBatched d0 n1 cb1).1.requests = d0.requests ∧
    (Djedi.getBatched (Djedi.getBatched d0 n1 cb1).1 n2 cb2).2 = CallResult.queued ∧
    (Djedi.getBatched (Djedi.getBatched d0 n1 cb1).1 n2 cb2).1.requests = d0.requests ∧
    (Djedi.getBatched (Djedi.getBatched d0 n1 cb1).1 n2 cb2).1.batch.timeoutId
      = some d0.nextTimerId ∧
    (Djedi.flushBatch (Djedi.getBatched (Djedi.getBatched d0 n1 cb1).1 n2 cb2).1).1.requests
      = d0.requests ++
        [(Djedi.flushBatch (Djedi.getBatched (Djedi.getBatched d0 n1 cb1).1 n2 cb2).1).2.request] ∧
    (Djedi.flushBatch (Djedi.getBatched (Djedi.getBatched d0 n1 cb1).1 n2 cb2).1).2.request.body
      = RequestBody.obj [(normalizeUri d0.options n1.uri, n1.value),
                         (normalizeUri d0.options n2.uri, n2.value)] ∧
    (flushResolve
        (Djedi.flushBatch (Djedi.getBatched (Djedi.getBatched d0 n1 cb1).1 n2 cb2).1).1
        (Djedi.flushBatch (Djedi.getBatched (Djedi.getBatched d0 n1 cb1).1 n2 cb2).1).2
        results).2
      = [(cb1, flushArg results (normalizeUri d0.options n1.uri)),
         (cb2, flushArg results (normalizeUri d0.options n2.uri))] := by
  have h1 := getBatched_uncached_fresh d0 n1 cb1 hI hb hc1
  rw [h1]
  dsimp only
  have h2 := getBatched_uncached_timerSet_newUri
    ({ d0 with
       batch := { timeoutId := some d0.nextTimerId,
                  queue := [(normalizeUri d0.options n1.uri,
                            { node := normalizeNode d0.options n1, callbacks := [cb1] })] }
       activeTimers := d0.activeTimers ++ [d0.nextTimerId]
       nextTimerId := d0.nextTimerId + 1 }) n2 cb2 d0.nextTimerId hI rfl hc2
    (by simp [lookupA, hne])
  rw [h2]
  dsimp only
  have hq12 : setA [(normalizeUri d0.options n1.uri,
        ({ node := normalizeNode d0.options n1, callbacks := [cb1] } : QueueEntry))]
        (normalizeUri d0.options n2.uri)
        { node := normalizeNode d0.options n2, callbacks := [cb2] }
      = [(normalizeUri d0.options n1.uri,
          { node := normalizeNode d0.options n1, callbacks := [cb1] }),
         (normalizeUri d0.options n2.uri,
          { node := normalizeNode d0.options n2, callbacks := [cb2] })] := by
    simp [setA, hne]
  rw [hq12]
  refine ⟨rfl, rfl, rfl, rfl, rfl, rfl, rfl, rfl⟩

/-- Witness for C1 at the initial state with the two example nodes and a
response that contains the first URI only: one request whose mapping
body covers both URIs, one result delivery and one missing-URI delivery
out of the same response. -/
theorem c1_one_request_covers_both_uris_witness :
    (0 : Int) < initialDjedi.options.batchInterval ∧
    initialDjedi.batch = makeEmptyBatch ∧
    normalizeUri initialDjedi.options exNode.uri
      ≠ normalizeUri initialDjedi.options exNodeB.uri ∧
    (Djedi.flushBatch (Djedi.getBatched (Djedi.getBatched initialDjedi exNode 1).1
        exNodeB 2).1).2.request.body
      = RequestBody.obj [(normalizeUri initialDjedi.options exNode.uri, exNode.value),
                         (normalizeUri initialDjedi.options exNodeB.uri, exNodeB.value)] ∧
    (flushResolve
        (Djedi.flushBatch (Djedi.getBatched (Djedi.getBatched initialDjedi exNode 1).1
            exNodeB 2).1).1
        (Djedi.flushBatch (Djedi.getBatched (Djedi.getBatched initialDjedi exNode 1).1
            exNodeB 2).1).2
        [(exUri, some "X")]).2
      = [(1, flushArg [(exUri, some "X")] (normalizeUri initialDjedi.options exNode.uri)),
         (2, flushArg [(exUri, some "X")] (normalizeUri initialDjedi.options exNodeB.uri))] :=
  ⟨by decide, rfl, by decide,
   (c1_one_request_covers_both_uris initialDjedi exNode exNodeB 1 2 [(exUri, some "X")]
     (by decide) rfl (by decide) rfl rfl).2.2.2.2.2.2.1,
   (c1_one_request_covers_both_uris initialDjedi exNode exNodeB 1 2 [(exUri, some "X")]
     (by decide) rfl (by decide) rfl rfl).2.2.2.2.2.2.2⟩
